import Mathlib

/-
Verification of `bugzooka/integrations/slack_commands.py`.

The module is embedded shallowly: strings are `List Char` (wrapped in `String`
at the interfaces), `os.getenv` is a function `String → Option String`,
exceptions are `Except String`, and the observable side effects of the slash
command dispatcher and of the background task runner are recorded as event
traces.  Python semantics (str.strip, str.lower, `in` on strings, the regular
expression `(\d+)([mhd])(\s+verbose)?` under `re.fullmatch`) are modelled over
ASCII, which covers every input the claims speak about.
-/

namespace BugZooka

/-- The characters stripped by Python `str.strip()` with no argument and
matched by the regex class `\s`, restricted to ASCII. -/
def pyIsSpace (c : Char) : Bool :=
  c == ' ' || c == '\t' || c == '\n' || c == '\r' || c == '\x0b' || c == '\x0c'

/-- The characters matched by the regex class `\d`, restricted to ASCII. -/
def pyIsDigit (c : Char) : Bool :=
  '0' ≤ c && c ≤ '9'

/-- Python `str.lower()` on one character, ASCII fragment. -/
def pyToLower (c : Char) : Char :=
  if 'A' ≤ c ∧ c ≤ 'Z' then Char.ofNat (c.toNat + 32) else c

/-- Python `str.upper()` on one character, ASCII fragment. -/
def pyToUpper (c : Char) : Char :=
  if 'a' ≤ c ∧ c ≤ 'z' then Char.ofNat (c.toNat - 32) else c

/-- Python `str.lower()`. -/
def pyLower (l : List Char) : List Char := l.map pyToLower

/-- Python `str.upper()` on a `String`. -/
def pyUpper (s : String) : String := ⟨s.data.map pyToUpper⟩

/-- Drop the leading whitespace, as Python `str.lstrip()`. -/
def pyStripLeft : List Char → List Char
  | [] => []
  | c :: cs => if pyIsSpace c then pyStripLeft cs else c :: cs

/-- Drop the trailing whitespace, as Python `str.rstrip()`. -/
def pyStripRight (l : List Char) : List Char :=
  (pyStripLeft l.reverse).reverse

/-- Python `str.strip()`: drop leading and trailing whitespace. -/
def pyStrip (l : List Char) : List Char :=
  pyStripRight (pyStripLeft l)

/-- Does `needle` occur at the very start of `hay`? -/
def startsWith : List Char → List Char → Bool
  | [], _ => true
  | _ :: _, [] => false
  | a :: as, b :: bs => a == b && startsWith as bs

/-- Python `needle in hay` for strings: substring containment. -/
def containsSub (needle : List Char) : List Char → Bool
  | [] => startsWith needle []
  | c :: rest => startsWith needle (c :: rest) || containsSub needle rest

/-- The characters of the literal `"verbose"`. -/
def verboseChars : List Char := ['v', 'e', 'r', 'b', 'o', 's', 'e']

/-- The three groups of a successful
`re.fullmatch(r"(\d+)([mhd])(\s+verbose)?", text_norm)`. -/
structure ReMatch where
  value : List Char
  unit : Char
  verboseSuffix : Option (List Char)
deriving DecidableEq, Repr

/-- `re.fullmatch(r"(\d+)([mhd])(\s+verbose)?", l)`: a maximal nonempty run of
digits, one unit character in `{m, h, d}`, then optionally some whitespace
followed by the literal `verbose`, consuming the whole input.  Greedy matching
with backtracking coincides with this maximal-munch reading because no digit is
a unit character and `verbose` starts with a non-space character. -/
def reFullmatch (l : List Char) : Option ReMatch :=
  if (l.takeWhile pyIsDigit).isEmpty then none
  else
    match l.dropWhile pyIsDigit with
    | [] => none
    | u :: rest2 =>
      if u == 'm' || u == 'h' || u == 'd' then
        match rest2 with
        | [] => some ⟨l.takeWhile pyIsDigit, u, none⟩
        | _ :: _ =>
          if (rest2.takeWhile pyIsSpace).isEmpty then none
          else if rest2.dropWhile pyIsSpace = verboseChars then
            some ⟨l.takeWhile pyIsDigit, u,
                  some (rest2.takeWhile pyIsSpace ++ rest2.dropWhile pyIsSpace)⟩
          else none
      else none

/-- Python `int(value)` for a string of decimal digits. -/
def digitsToNat (l : List Char) : Nat :=
  l.foldl (fun acc c => acc * 10 + (c.toNat - '0'.toNat)) 0

/-- The dictionary lookup `{"m": 60, "h": 3600, "d": 86400}[unit]`; `none`
models the `KeyError` a missing key would raise. -/
def factorOf (u : Char) : Option Nat :=
  if u = 'm' then some 60
  else if u = 'h' then some 3600
  else if u = 'd' then some 86400
  else none

/-- `_parse_lookback_and_verbose(text)` with the configured
`SUMMARY_LOOKBACK_SECONDS` passed as `defaultLookback`.  The result is `none`
exactly when the Python code would raise (dictionary lookup failure on the
matched branch); it is proved below that this never happens. -/
def parseLookbackAndVerbose (defaultLookback : Nat) (text : List Char) :
    Option (Nat × Bool) :=
  if text.isEmpty then some (defaultLookback, false)
  else
    match reFullmatch (pyLower (pyStrip text)) with
    | none =>
      some (defaultLookback, containsSub verboseChars (pyLower (pyStrip text)))
    | some m =>
      match factorOf m.unit with
      | none => none
      | some factor =>
        some (digitsToNat m.value * factor,
              match m.verboseSuffix with
              | none => false
              | some s => !(pyStrip s).isEmpty)

/-- `_ensure_required_env(var_name)` over an environment `env`; `os.getenv`
returns `none` for an unset variable, and `not value` is true exactly for
`None` and the empty string. -/
def ensureRequiredEnv (env : String → Option String) (varName : String) :
    Except String String :=
  match env varName with
  | none => Except.error ("Missing required environment variable: " ++ varName)
  | some v =>
    if v = "" then
      Except.error ("Missing required environment variable: " ++ varName)
    else Except.ok v

/-- A Slack response payload, as the dictionaries passed to `ack` and
`respond`. -/
structure SlackPayload where
  responseType : String
  text : String
deriving DecidableEq, Repr

/-- The slash-command request body; `none` models a `None` body and each
field models a possibly missing dictionary key. -/
structure SlackBody where
  text : Option String
  channelId : Option String
deriving DecidableEq, Repr

/-- Modelled from the spec: `get_product_config` lives in
`bugzooka.core.config`, outside these sources; the spec describes it only as
an opaque lookup result keyed by an uppercased product name.  The payload is
irrelevant to every claim, so it is an opaque wrapper. -/
structure ProductConfig where
  key : String
deriving DecidableEq, Repr

/-- The arguments captured by copy for one background task. -/
structure TaskArgs where
  channelId : Option String
  product : String
  ci : String
  productConfig : ProductConfig
  lookbackSeconds : Nat
  verbose : Bool
deriving DecidableEq, Repr

/-- Observable effects of `handle_summarise_command`, in order. -/
inductive Event where
  | ack (payload : SlackPayload)
  | envLookup (name : String)
  | configLookup (product : String)
  | spawn (args : TaskArgs)
deriving DecidableEq, Repr

/-- Is the event an acknowledgment response? -/
def Event.isAck : Event → Bool
  | .ack _ => true
  | _ => false

/-- Is the event the spawning of a background task? -/
def Event.isSpawn : Event → Bool
  | .spawn _ => true
  | _ => false

/-- `(body or {}).get("text", "")`. -/
def invocationText (body : Option SlackBody) : String :=
  match body with
  | none => ""
  | some b => b.text.getD ""

/-- `(body or {}).get("channel_id")`. -/
def invocationChannelId (body : Option SlackBody) : Option String :=
  match body with
  | none => none
  | some b => b.channelId

/-- The `window_str` computed by the handler:
`f"last {text.strip()}" if text.strip() else "default window"`. -/
def windowStr (text : String) : String :=
  if (pyStrip text.data).isEmpty then "default window"
  else "last " ++ String.mk (pyStrip text.data)

/-- The dictionary passed to `ack`. -/
def ackPayload (text : String) : SlackPayload :=
  ⟨"ephemeral",
   "Starting summary for " ++ windowStr text ++ ". I'll post results here shortly."⟩

/-- `handle_summarise_command(ack, body, respond, logger)` as a trace of
events paired with its outcome: `Except.error` models an exception
propagating out of the handler.  `env` is the process environment and `cfg`
models `get_product_config`, with `none` standing for a raised lookup
failure.  The order mirrors the code: parse, ack, `PRODUCT`, `CI`, product
configuration, thread start. -/
def handleSummariseCommand (defaultLookback : Nat) (env : String → Option String)
    (cfg : String → Option ProductConfig) (body : Option SlackBody) :
    List Event × Except String Unit :=
  match parseLookbackAndVerbose defaultLookback (invocationText body).data with
  | none => ([], Except.error "KeyError")
  | some (lookbackSeconds, verbose) =>
    match ensureRequiredEnv env "PRODUCT" with
    | Except.error e =>
      ([Event.ack (ackPayload (invocationText body)), Event.envLookup "PRODUCT"],
       Except.error e)
    | Except.ok productRaw =>
      match ensureRequiredEnv env "CI" with
      | Except.error e =>
        ([Event.ack (ackPayload (invocationText body)),
          Event.envLookup "PRODUCT", Event.envLookup "CI"], Except.error e)
      | Except.ok ciRaw =>
        match cfg (pyUpper productRaw) with
        | none =>
          ([Event.ack (ackPayload (invocationText body)),
            Event.envLookup "PRODUCT", Event.envLookup "CI",
            Event.configLookup (pyUpper productRaw)],
           Except.error ("product config lookup failed: " ++ pyUpper productRaw))
        | some pc =>
          ([Event.ack (ackPayload (invocationText body)),
            Event.envLookup "PRODUCT", Event.envLookup "CI",
            Event.configLookup (pyUpper productRaw),
            Event.spawn ⟨invocationChannelId body, pyUpper productRaw,
              pyUpper ciRaw, pc, lookbackSeconds, verbose⟩],
           Except.ok ())

/-- Observable effects of `_run_summary`, in order. -/
inductive RunEvent where
  | logError (msg : String)
  | respondCall (payload : SlackPayload)
deriving DecidableEq, Repr

/-- `_run_summary()` as a trace of events paired with what propagates out of
it.  `fetchResult` abstracts the fetcher construction plus
`post_time_summary` (any exception they raise is its `Except.error`);
`respondResult` abstracts the `respond(...)` call inside the handler for that
exception.  The identical arms of the inner match are the `except Exception:
pass` that swallows a failure of `respond`. -/
def runSummary (fetchResult : Except String Unit)
    (respondResult : Except String Unit) : List RunEvent × Except String Unit :=
  match fetchResult with
  | Except.ok _ => ([], Except.ok ())
  | Except.error e =>
    let events := [RunEvent.logError ("/summarise failed: " ++ e),
                   RunEvent.respondCall ⟨"ephemeral", "Summary failed: " ++ e⟩]
    match respondResult with
    | Except.ok _ => (events, Except.ok ())
    | Except.error _ => (events, Except.ok ())

/- Character-level facts. -/

theorem pyIsDigit_iff (c : Char) : pyIsDigit c = true ↔ '0' ≤ c ∧ c ≤ '9' := by
  simp [pyIsDigit]

theorem pyIsSpace_cases (c : Char) (h : pyIsSpace c = true) :
    c = ' ' ∨ c = '\t' ∨ c = '\n' ∨ c = '\r' ∨ c = '\x0b' ∨ c = '\x0c' := by
  simp [pyIsSpace] at h
  tauto

theorem pyToLower_of_digit (c : Char) (h : pyIsDigit c = true) :
    pyToLower c = c := by
  rcases (pyIsDigit_iff c).1 h with ⟨_, h9⟩
  have : ¬('A' ≤ c ∧ c ≤ 'Z') := by
    rintro ⟨hA, _⟩
    exact absurd (le_trans hA h9) (by decide)
  simp [pyToLower, this]

theorem pyToLower_of_space (c : Char) (h : pyIsSpace c = true) :
    pyToLower c = c := by
  rcases pyIsSpace_cases c h with h | h | h | h | h | h <;> subst h <;> decide

theorem pyIsSpace_of_digit (c : Char) (h : pyIsDigit c = true) :
    pyIsSpace c = false := by
  cases hs : pyIsSpace c with
  | false => rfl
  | true =>
    rcases pyIsSpace_cases c hs with h' | h' | h' | h' | h' | h' <;>
      (subst h'; exact absurd h (by decide))

theorem pyIsSpace_of_unit (u : Char) (f : Nat)
    (hf : factorOf (pyToLower u) = some f) : pyIsSpace u = false := by
  cases hs : pyIsSpace u with
  | false => rfl
  | true =>
    rw [pyToLower_of_space u hs] at hf
    rcases pyIsSpace_cases u hs with h' | h' | h' | h' | h' | h' <;>
      (subst h'; simp [factorOf] at hf)

theorem factorOf_unit (u : Char) (f : Nat) (hf : factorOf u = some f) :
    u = 'm' ∨ u = 'h' ∨ u = 'd' := by
  by_cases hm : u = 'm'
  · exact Or.inl hm
  · by_cases hh : u = 'h'
    · exact Or.inr (Or.inl hh)
    · by_cases hd : u = 'd'
      · exact Or.inr (Or.inr hd)
      · simp [factorOf, hm, hh, hd] at hf

/- Strip-level facts. -/

theorem pyStripLeft_append_of_all (ws l : List Char)
    (h : ws.all pyIsSpace = true) : pyStripLeft (ws ++ l) = pyStripLeft l := by
  induction ws with
  | nil => rfl
  | cons c cs ih =>
    simp only [List.all_cons, Bool.and_eq_true] at h
    obtain ⟨hc, hcs⟩ := h
    simp only [List.cons_append, pyStripLeft, hc, if_true]
    exact ih hcs

theorem pyStripLeft_all (l : List Char) (h : l.all pyIsSpace = true) :
    pyStripLeft l = [] := by
  have := pyStripLeft_append_of_all l [] h
  simpa using this

theorem pyStripLeft_of_head (c : Char) (l : List Char)
    (h : pyIsSpace c = false) : pyStripLeft (c :: l) = c :: l := by
  simp [pyStripLeft, h]

theorem pyStripLeft_eq_self (l : List Char)
    (h : ∀ c, l.head? = some c → pyIsSpace c = false) : pyStripLeft l = l := by
  cases l with
  | nil => rfl
  | cons c t => exact pyStripLeft_of_head c t (h c rfl)

theorem pyStripRight_append_of_all (l ws : List Char)
    (h : ws.all pyIsSpace = true)
    (hl : ∀ c, l.getLast? = some c → pyIsSpace c = false) :
    pyStripRight (l ++ ws) = l := by
  unfold pyStripRight
  rw [List.reverse_append,
      pyStripLeft_append_of_all ws.reverse l.reverse (by simpa using h),
      pyStripLeft_eq_self l.reverse (by simpa using hl), List.reverse_reverse]

theorem pyStrip_sandwich (ws1 l ws2 : List Char)
    (h1 : ws1.all pyIsSpace = true) (h2 : ws2.all pyIsSpace = true)
    (hh : ∀ c, l.head? = some c → pyIsSpace c = false)
    (hl : ∀ c, l.getLast? = some c → pyIsSpace c = false) :
    pyStrip (ws1 ++ l ++ ws2) = l := by
  unfold pyStrip
  rw [List.append_assoc, pyStripLeft_append_of_all ws1 (l ++ ws2) h1]
  cases l with
  | nil =>
    rw [List.nil_append, pyStripLeft_all ws2 h2]
    rfl
  | cons c t =>
    rw [List.cons_append, pyStripLeft_of_head c (t ++ ws2) (hh c rfl),
        ← List.cons_append]
    exact pyStripRight_append_of_all (c :: t) ws2 h2 hl

theorem pyStrip_all_space (l : List Char) (h : l.all pyIsSpace = true) :
    pyStrip l = [] := by
  unfold pyStrip
  rw [pyStripLeft_all l h]
  rfl

/- takeWhile / dropWhile on a list whose shape is known. -/

theorem takeWhile_append_all {p : Char → Bool} (l : List Char) (c : Char)
    (r : List Char) (h : l.all p = true) (hc : p c = false) :
    (l ++ c :: r).takeWhile p = l := by
  induction l with
  | nil => simp [List.takeWhile, hc]
  | cons a t ih =>
    simp only [List.all_cons, Bool.and_eq_true] at h
    simp [List.takeWhile, h.1, ih h.2]

theorem dropWhile_append_all {p : Char → Bool} (l : List Char) (c : Char)
    (r : List Char) (h : l.all p = true) (hc : p c = false) :
    (l ++ c :: r).dropWhile p = c :: r := by
  induction l with
  | nil => simp [List.dropWhile, hc]
  | cons a t ih =>
    simp only [List.all_cons, Bool.and_eq_true] at h
    simp [List.dropWhile, h.1, ih h.2]

/- Lowercasing lists whose contents are known. -/

theorem pyLower_of_all_fixed (l : List Char) (h : ∀ c ∈ l, pyToLower c = c) :
    pyLower l = l := by
  induction l with
  | nil => rfl
  | cons a t ih =>
    simp only [pyLower, List.map_cons, h a (by simp)]
    have := ih fun c hc => h c (by simp [hc])
    simpa [pyLower] using this

theorem pyLower_digits (l : List Char) (h : l.all pyIsDigit = true) :
    pyLower l = l :=
  pyLower_of_all_fixed l fun c hc =>
    pyToLower_of_digit c (by
      rw [List.all_eq_true] at h
      exact h c hc)

theorem pyLower_spaces (l : List Char) (h : l.all pyIsSpace = true) :
    pyLower l = l :=
  pyLower_of_all_fixed l fun c hc =>
    pyToLower_of_space c (by
      rw [List.all_eq_true] at h
      exact h c hc)

/- Evaluating the regular expression on inputs of the matched shape. -/

theorem reFullmatch_plain (ds : List Char) (u : Char)
    (hds : ds ≠ []) (hall : ds.all pyIsDigit = true)
    (hu : u = 'm' ∨ u = 'h' ∨ u = 'd') :
    reFullmatch (ds ++ [u]) = some ⟨ds, u, none⟩ := by
  have hud : pyIsDigit u = false := by
    rcases hu with h | h | h <;> (subst h; decide)
  have htake : (ds ++ [u]).takeWhile pyIsDigit = ds :=
    takeWhile_append_all ds u [] hall hud
  have hdrop : (ds ++ [u]).dropWhile pyIsDigit = [u] :=
    dropWhile_append_all ds u [] hall hud
  have hcond : (u == 'm' || u == 'h' || u == 'd') = true := by
    rcases hu with h | h | h <;> simp [h]
  unfold reFullmatch
  rw [htake, hdrop]
  simp [List.isEmpty_eq_false.mpr hds, hcond]

theorem reFullmatch_verbose (ds : List Char) (u : Char) (wsMid : List Char)
    (hds : ds ≠ []) (hall : ds.all pyIsDigit = true)
    (hu : u = 'm' ∨ u = 'h' ∨ u = 'd')
    (hws : wsMid ≠ []) (hwsall : wsMid.all pyIsSpace = true) :
    reFullmatch (ds ++ u :: (wsMid ++ verboseChars)) =
      some ⟨ds, u, some (wsMid ++ verboseChars)⟩ := by
  have hud : pyIsDigit u = false := by
    rcases hu with h | h | h <;> (subst h; decide)
  have htake : (ds ++ u :: (wsMid ++ verboseChars)).takeWhile pyIsDigit = ds :=
    takeWhile_append_all ds u (wsMid ++ verboseChars) hall hud
  have hdrop : (ds ++ u :: (wsMid ++ verboseChars)).dropWhile pyIsDigit =
      u :: (wsMid ++ verboseChars) :=
    dropWhile_append_all ds u (wsMid ++ verboseChars) hall hud
  have hcond : (u == 'm' || u == 'h' || u == 'd') = true := by
    rcases hu with h | h | h <;> simp [h]
  have hvtake : (wsMid ++ verboseChars).takeWhile pyIsSpace = wsMid := by
    have : (wsMid ++ 'v' :: ['e', 'r', 'b', 'o', 's', 'e']).takeWhile pyIsSpace
        = wsMid := takeWhile_append_all wsMid 'v' _ hwsall (by decide)
    simpa [verboseChars] using this
  have hvdrop : (wsMid ++ verboseChars).dropWhile pyIsSpace = verboseChars := by
    have : (wsMid ++ 'v' :: ['e', 'r', 'b', 'o', 's', 'e']).dropWhile pyIsSpace
        = 'v' :: ['e', 'r', 'b', 'o', 's', 'e'] :=
      dropWhile_append_all wsMid 'v' _ hwsall (by decide)
    simpa [verboseChars] using this
  unfold reFullmatch
  rw [htake, hdrop]
  cases hmid : wsMid with
  | nil => exact absurd hmid hws
  | cons w t =>
    simp only [List.cons_append]
    rw [← List.cons_append, ← hmid, hvtake, hvdrop]
    simp [List.isEmpty_eq_false.mpr hds, hcond, List.isEmpty_eq_false.mpr hws,
      hmid]

/- Evaluating the parser on inputs of the matched shape. -/

theorem head_not_space_of_digits (ds : List Char) (rest : List Char)
    (hds : ds ≠ []) (hall : ds.all pyIsDigit = true) :
    ∀ c, (ds ++ rest).head? = some c → pyIsSpace c = false := by
  cases ds with
  | nil => exact absurd rfl hds
  | cons a t =>
    intro c hc
    simp only [List.cons_append, List.head?_cons, Option.some.injEq] at hc
    subst hc
    simp only [List.all_cons, Bool.and_eq_true] at hall
    exact pyIsSpace_of_digit a hall.1

theorem parse_matched_general (d : Nat) (ws1 ws2 ds : List Char) (u : Char)
    (f : Nat) (h1 : ws1.all pyIsSpace = true) (h2 : ws2.all pyIsSpace = true)
    (hds : ds ≠ []) (hall : ds.all pyIsDigit = true)
    (hf : factorOf (pyToLower u) = some f) :
    parseLookbackAndVerbose d (ws1 ++ (ds ++ [u]) ++ ws2) =
      some (digitsToNat ds * f, false) := by
  have husp : pyIsSpace u = false := pyIsSpace_of_unit u f hf
  have hu' := factorOf_unit (pyToLower u) f hf
  have hl : ∀ c, (ds ++ [u]).getLast? = some c → pyIsSpace c = false := by
    intro c hc
    rw [List.getLast?_concat, Option.some.injEq] at hc
    subst hc
    exact husp
  have hstrip : pyStrip (ws1 ++ (ds ++ [u]) ++ ws2) = ds ++ [u] :=
    pyStrip_sandwich ws1 (ds ++ [u]) ws2 h1 h2
      (head_not_space_of_digits ds [u] hds hall) hl
  have hlower : pyLower (ds ++ [u]) = ds ++ [pyToLower u] := by
    simp only [pyLower, List.map_append, List.map_cons, List.map_nil]
    rw [show List.map pyToLower ds = pyLower ds from rfl, pyLower_digits ds hall]
  have hre : reFullmatch (ds ++ [pyToLower u]) =
      some ⟨ds, pyToLower u, none⟩ := reFullmatch_plain ds _ hds hall hu'
  have hne : (ws1 ++ (ds ++ [u]) ++ ws2).isEmpty = false := by
    rcases ds with _ | ⟨a, t⟩
    · exact absurd rfl hds
    · simp
  unfold parseLookbackAndVerbose
  rw [hne, hstrip, hlower, hre]
  simp [hf]

theorem parse_matched_verbose_general (d : Nat) (ws1 ws2 ds : List Char)
    (u : Char) (f : Nat) (wsMid vcase : List Char)
    (h1 : ws1.all pyIsSpace = true) (h2 : ws2.all pyIsSpace = true)
    (hds : ds ≠ []) (hall : ds.all pyIsDigit = true)
    (hf : factorOf (pyToLower u) = some f)
    (hmid : wsMid ≠ []) (hmidall : wsMid.all pyIsSpace = true)
    (hv : pyLower vcase = verboseChars) :
    parseLookbackAndVerbose d (ws1 ++ (ds ++ u :: (wsMid ++ vcase)) ++ ws2) =
      some (digitsToNat ds * f, true) := by
  have husp : pyIsSpace u = false := pyIsSpace_of_unit u f hf
  have hu' := factorOf_unit (pyToLower u) f hf
  have hvne : vcase ≠ [] := by
    intro hcv
    rw [hcv] at hv
    exact absurd hv (by decide)
  have hlastv : ∀ c, vcase.getLast? = some c → pyIsSpace c = false := by
    intro c hc
    have hmap : (List.map pyToLower vcase).getLast? = some (pyToLower c) := by
      rw [List.getLast?_map, hc]
      rfl
    rw [show List.map pyToLower vcase = pyLower vcase from rfl, hv] at hmap
    have hce : pyToLower c = 'e' := by
      have : verboseChars.getLast? = some 'e' := rfl
      rw [this, Option.some.injEq] at hmap
      exact hmap.symm
    cases hs : pyIsSpace c with
    | false => rfl
    | true =>
      rw [pyToLower_of_space c hs] at hce
      subst hce
      exact absurd hs (by decide)
  have hl : ∀ c, (ds ++ u :: (wsMid ++ vcase)).getLast? = some c →
      pyIsSpace c = false := by
    intro c hc
    rw [List.getLast?_append] at hc
    cases hg : (u :: (wsMid ++ vcase)).getLast? with
    | none => rw [hg] at hc; simp at hg
    | some g =>
      rw [hg] at hc
      replace hc : g = c := by simpa using hc
      have hg' : (wsMid ++ vcase).getLast? = some g := by
        have hne2 : wsMid ++ vcase ≠ [] := by
          simp [List.append_eq_nil, hmid]
        rcases hx : (wsMid ++ vcase) with _ | ⟨x, xs⟩
        · exact absurd hx hne2
        · rw [hx] at hg
          simpa [List.getLast?_cons_cons] using hg
      rw [List.getLast?_append] at hg'
      cases hgv : vcase.getLast? with
      | none =>
        rw [hgv] at hg'
        rcases hy : vcase with _ | ⟨y, ys⟩
        · exact absurd hy hvne
        · rw [hy] at hgv; simp at hgv
      | some gv =>
        rw [hgv] at hg'
        replace hg' : gv = g := by simpa using hg'
        subst hc
        subst hg'
        exact hlastv gv hgv
  have hstrip : pyStrip (ws1 ++ (ds ++ u :: (wsMid ++ vcase)) ++ ws2) =
      ds ++ u :: (wsMid ++ vcase) :=
    pyStrip_sandwich ws1 (ds ++ u :: (wsMid ++ vcase)) ws2 h1 h2
      (head_not_space_of_digits ds (u :: (wsMid ++ vcase)) hds hall) hl
  have hlower : pyLower (ds ++ u :: (wsMid ++ vcase)) =
      ds ++ pyToLower u :: (wsMid ++ verboseChars) := by
    simp only [pyLower, List.map_append, List.map_cons]
    rw [show List.map pyToLower ds = pyLower ds from rfl, pyLower_digits ds hall,
        show List.map pyToLower wsMid = pyLower wsMid from rfl,
        pyLower_spaces wsMid hmidall,
        show List.map pyToLower vcase = pyLower vcase from rfl, hv]
  have hre : reFullmatch (ds ++ pyToLower u :: (wsMid ++ verboseChars)) =
      some ⟨ds, pyToLower u, some (wsMid ++ verboseChars)⟩ :=
    reFullmatch_verbose ds (pyToLower u) wsMid hds hall hu' hmid hmidall
  have hssuf : pyStrip (wsMid ++ verboseChars) = verboseChars := by
    have h0 := pyStrip_sandwich wsMid verboseChars [] hmidall rfl
      (by intro c hc; cases hc; decide)
      (by
        intro c hc
        have : verboseChars.getLast? = some 'e' := rfl
        rw [this, Option.some.injEq] at hc
        subst hc
        decide)
    simpa using h0
  have hne : (ws1 ++ (ds ++ u :: (wsMid ++ vcase)) ++ ws2).isEmpty = false := by
    rcases ds with _ | ⟨a, t⟩
    · exact absurd rfl hds
    · simp
  unfold parseLookbackAndVerbose
  rw [hne, hstrip, hlower, hre]
  simp only [hf, hssuf]
  simp [verboseChars]

theorem reFullmatch_unit (l : List Char) (m : ReMatch)
    (h : reFullmatch l = some m) : m.unit = 'm' ∨ m.unit = 'h' ∨ m.unit = 'd' := by
  unfold reFullmatch at h
  split at h
  · exact absurd h (by simp)
  · split at h
    · exact absurd h (by simp)
    · rename_i u rest2 _
      split at h
      · rename_i hcond
        have hu : u = 'm' ∨ u = 'h' ∨ u = 'd' := by
          simp at hcond
          tauto
        split at h
        · rw [Option.some.injEq] at h
          subst h
          exact hu
        · split at h
          · exact absurd h (by simp)
          · split at h
            · rw [Option.some.injEq] at h
              subst h
              exact hu
            · exact absurd h (by simp)
      · exact absurd h (by simp)

/-- C8: `_parse_lookback_and_verbose` is total: for every input string it
returns a `(lookback_seconds, verbose)` pair and never fails — in particular
the unit-factor dictionary lookup on the matched branch cannot raise, because
the regular expression constrains the unit to `{m, h, d}`. -/
theorem parse_total_spec (d : Nat) (text : List Char) :
    (parseLookbackAndVerbose d text).isSome = true := by
  unfold parseLookbackAndVerbose
  split
  · rfl
  · split
    · rfl
    · rename_i m hm
      rcases reFullmatch_unit _ m hm with h | h | h <;>
        simp [factorOf, h]

theorem parse_exists (d : Nat) (text : List Char) :
    ∃ p, parseLookbackAndVerbose d text = some p := by
  have := parse_total_spec d text
  exact Option.isSome_iff_exists.mp this

/-- C1: for input of the exact form `<digits><unit>` — unit one of m/h/d
case-insensitively, surrounded by optional whitespace — the parser returns
`(N × factor, false)` with the factor given by the unit table (60 for m,
3600 for h, 86400 for d, per `factorOf`); with an additional whitespace-
separated `verbose` suffix in any case it returns `(N × factor, true)`. -/
theorem parse_exact_form_spec (d : Nat) (ws1 ws2 ds : List Char) (u : Char)
    (f : Nat) (h1 : ws1.all pyIsSpace = true) (h2 : ws2.all pyIsSpace = true)
    (hds : ds ≠ []) (hall : ds.all pyIsDigit = true)
    (hf : factorOf (pyToLower u) = some f) :
    parseLookbackAndVerbose d (ws1 ++ (ds ++ [u]) ++ ws2) =
      some (digitsToNat ds * f, false) ∧
    ∀ wsMid vcase, wsMid ≠ [] → wsMid.all pyIsSpace = true →
      pyLower vcase = verboseChars →
      parseLookbackAndVerbose d (ws1 ++ (ds ++ u :: (wsMid ++ vcase)) ++ ws2) =
        some (digitsToNat ds * f, true) := by
  refine ⟨parse_matched_general d ws1 ws2 ds u f h1 h2 hds hall hf, ?_⟩
  intro wsMid vcase hmid hmidall hv
  exact parse_matched_verbose_general d ws1 ws2 ds u f wsMid vcase
    h1 h2 hds hall hf hmid hmidall hv

/-- Witness for C1: `"20m"` parses to `(1200, false)`, `"1h verbose"` to
`(3600, true)` and `"2d"` to `(172800, false)`. -/
theorem parse_exact_form_witness :
    parseLookbackAndVerbose 999 "20m".data = some (1200, false) ∧
    parseLookbackAndVerbose 999 "1h verbose".data = some (3600, true) ∧
    parseLookbackAndVerbose 999 "2d".data = some (172800, false) := by
  refine ⟨?_, ?_, ?_⟩
  · exact (parse_exact_form_spec 999 [] [] ['2', '0'] 'm' 60 rfl rfl
      (by decide) (by decide) (by decide)).1
  · exact (parse_exact_form_spec 999 [] [] ['1'] 'h' 3600 rfl rfl
      (by decide) (by decide) (by decide)).2 [' '] "verbose".data
      (by decide) (by decide) (by decide)
  · exact (parse_exact_form_spec 999 [] [] ['2'] 'd' 86400 rfl rfl
      (by decide) (by decide) (by decide)).1

/-- C6: empty or whitespace-only input parses to the configured default
lookback with `verbose = false`. -/
theorem parse_blank_spec (d : Nat) (text : List Char)
    (h : text.all pyIsSpace = true) :
    parseLookbackAndVerbose d text = some (d, false) := by
  unfold parseLookbackAndVerbose
  split
  · rfl
  · rw [pyStrip_all_space text h]
    rfl

/-- Witness for C6: the empty input and `"   "` both parse to the default. -/
theorem parse_blank_witness :
    parseLookbackAndVerbose 999 "".data = some (999, false) ∧
    parseLookbackAndVerbose 999 "   ".data = some (999, false) :=
  ⟨parse_blank_spec 999 "".data (by decide),
   parse_blank_spec 999 "   ".data (by decide)⟩

/-- C7: non-empty input that fails the pattern after trimming and
lowercasing parses to the default lookback, with `verbose` true exactly when
the literal substring `verbose` occurs in the normalized text. -/
theorem parse_fallback_spec (d : Nat) (text : List Char) (hne : text ≠ [])
    (hnm : reFullmatch (pyLower (pyStrip text)) = none) :
    parseLookbackAndVerbose d text =
      some (d, containsSub verboseChars (pyLower (pyStrip text))) := by
  unfold parseLookbackAndVerbose
  rw [hnm]
  simp [List.isEmpty_eq_false.mpr hne]

/-- Witness for C7: `"garbage verbose text"` fails the pattern and parses to
`(default, true)`. -/
theorem parse_fallback_witness :
    parseLookbackAndVerbose 999 "garbage verbose text".data =
      some (999, true) := by
  have h := parse_fallback_spec 999 "garbage verbose text".data
    (by decide) (by decide)
  rw [h]
  decide

/-- C10: the parser enforces no upper bound on the window: every nonempty
decimal digit string followed by a unit is accepted, and the lookback is
exactly the digits' value times the unit factor, unclamped. -/
theorem parse_unbounded_spec (d : Nat) (ds : List Char) (u : Char)
    (hds : ds ≠ []) (hall : ds.all pyIsDigit = true)
    (hu : u = 'm' ∨ u = 'h' ∨ u = 'd') :
    parseLookbackAndVerbose d (ds ++ [u]) =
      some (digitsToNat ds *
        (if u = 'm' then 60 else if u = 'h' then 3600 else 86400), false) := by
  have key : ∀ f, factorOf (pyToLower u) = some f →
      parseLookbackAndVerbose d (ds ++ [u]) = some (digitsToNat ds * f, false) := by
    intro f hf
    have h := parse_matched_general d [] [] ds u f rfl rfl hds hall hf
    simpa using h
  rcases hu with h | h | h <;> subst h <;> norm_num <;> exact key _ (by decide)

/-- Witness for C10: `"999999999d"` yields `86399999913600` seconds and
`"0m"` yields `0`. -/
theorem parse_unbounded_witness :
    parseLookbackAndVerbose 999 "999999999d".data =
      some (86399999913600, false) ∧
    parseLookbackAndVerbose 999 "0m".data = some (0, false) := by
  constructor
  · have h := parse_unbounded_spec 999
      ['9', '9', '9', '9', '9', '9', '9', '9', '9'] 'd' (by decide) (by decide)
      (by decide)
    rw [show ("999999999d".data =
      ['9', '9', '9', '9', '9', '9', '9', '9', '9'] ++ ['d']) from rfl, h]
    decide
  · have h := parse_unbounded_spec 999 ['0'] 'm' (by decide) (by decide)
      (by decide)
    rw [show ("0m".data = ['0'] ++ ['m']) from rfl, h]
    decide

/-- C4: `_ensure_required_env` returns the variable's value exactly when it
is set to a non-empty string, and fails with an error whose message names the
variable exactly when it is unset or empty; no other outcome exists. -/
theorem ensureRequiredEnv_spec (env : String → Option String) (n : String) :
    (∀ v, env n = some v → v ≠ "" → ensureRequiredEnv env n = Except.ok v) ∧
    ((env n = none ∨ env n = some "") →
      ensureRequiredEnv env n =
        Except.error ("Missing required environment variable: " ++ n)) ∧
    (∀ v, ensureRequiredEnv env n = Except.ok v → env n = some v ∧ v ≠ "") ∧
    (∀ msg, ensureRequiredEnv env n = Except.error msg →
      msg = "Missing required environment variable: " ++ n ∧
      ∃ pre suf, msg.data = pre ++ n.data ++ suf) := by
  refine ⟨?_, ?_, ?_, ?_⟩
  · intro v hv hne
    simp [ensureRequiredEnv, hv, hne]
  · rintro (hv | hv) <;> simp [ensureRequiredEnv, hv]
  · intro v hok
    cases hv : env n with
    | none => simp [ensureRequiredEnv, hv] at hok
    | some w =>
      by_cases hw : w = ""
      · subst hw
        simp [ensureRequiredEnv, hv] at hok
      · simp only [ensureRequiredEnv, hv, if_neg hw, Except.ok.injEq] at hok
        subst hok
        exact ⟨rfl, hw⟩
  · intro msg herr
    have hmsg : msg = "Missing required environment variable: " ++ n := by
      cases hv : env n with
      | none =>
        have hred : ensureRequiredEnv env n =
            Except.error ("Missing required environment variable: " ++ n) := by
          simp [ensureRequiredEnv, hv]
        rw [hred] at herr
        injection herr with h
        exact h.symm
      | some w =>
        by_cases hw : w = ""
        · subst hw
          have hred : ensureRequiredEnv env n =
              Except.error ("Missing required environment variable: " ++ n) := by
            simp [ensureRequiredEnv, hv]
          rw [hred] at herr
          injection herr with h
          exact h.symm
        · simp [ensureRequiredEnv, hv, hw] at herr
    refine ⟨hmsg, "Missing required environment variable: ".data, [], ?_⟩
    rw [hmsg]
    simp

/-- Witness for C4: a set, non-empty variable is returned; an unset one
fails with a message naming it. -/
theorem ensureRequiredEnv_witness :
    ensureRequiredEnv (fun x => if x = "PRODUCT" then some "ocp" else none)
      "PRODUCT" = Except.ok "ocp" ∧
    ensureRequiredEnv (fun x => if x = "PRODUCT" then some "ocp" else none)
      "CI" = Except.error "Missing required environment variable: CI" :=
  ⟨(ensureRequiredEnv_spec (fun x => if x = "PRODUCT" then some "ocp" else none)
      "PRODUCT").1 "ocp" (by decide) (by decide),
   (ensureRequiredEnv_spec (fun x => if x = "PRODUCT" then some "ocp" else none)
      "CI").2.1 (Or.inl (by decide))⟩

/-- C9: a variable set to a non-empty, all-whitespace string passes the check
and is returned unchanged, untrimmed. -/
theorem ensureRequiredEnv_whitespace_spec (env : String → Option String)
    (n : String) (v : String) (hne : v.data ≠ [])
    (hws : v.data.all pyIsSpace = true) (henv : env n = some v) :
    ensureRequiredEnv env n = Except.ok v := by
  have hv : v ≠ "" := by
    intro h
    subst h
    exact hne rfl
  simp [ensureRequiredEnv, henv, hv]

/-- Witness for C9: the single-space value is returned unchanged. -/
theorem ensureRequiredEnv_whitespace_witness :
    ensureRequiredEnv (fun _ => some " ") "PRODUCT" = Except.ok " " :=
  ensureRequiredEnv_whitespace_spec (fun _ => some " ") "PRODUCT" " "
    (by decide) (by decide) rfl

/-- C5: whatever the fetcher and the respond callable do, nothing propagates
out of `_run_summary`; on fetcher success there is no log and no response
attempt, and on fetcher failure the trace is exactly one error log followed
by exactly one ephemeral `Summary failed` response attempt, whose own failure
is swallowed. -/
theorem runSummary_spec (fr rr : Except String Unit) :
    (runSummary fr rr).2 = Except.ok () ∧
    (fr = Except.ok () → (runSummary fr rr).1 = []) ∧
    (∀ e, fr = Except.error e →
      (runSummary fr rr).1 =
        [RunEvent.logError ("/summarise failed: " ++ e),
         RunEvent.respondCall ⟨"ephemeral", "Summary failed: " ++ e⟩]) := by
  cases fr with
  | ok u => cases u; cases rr <;> simp [runSummary]
  | error e => cases rr <;> simp [runSummary]

/-- Witness for C5: a failing fetch with a failing respond still ends in
`ok`, with the one log entry and the one response attempt. -/
theorem runSummary_witness :
    (runSummary (Except.error "boom") (Except.error "net down")).2 =
      Except.ok () ∧
    (runSummary (Except.error "boom") (Except.error "net down")).1 =
      [RunEvent.logError ("/summarise failed: " ++ "boom"),
       RunEvent.respondCall ⟨"ephemeral", "Summary failed: " ++ "boom"⟩] :=
  ⟨(runSummary_spec (Except.error "boom") (Except.error "net down")).1,
   (runSummary_spec (Except.error "boom") (Except.error "net down")).2.2
     "boom" rfl⟩

/-- C2 (amended): every invocation sends exactly one acknowledgment, first,
before any environment lookup, configuration lookup or spawn; its payload is
ephemeral with text naming the window, where `windowStr` yields
`last <trimmed text>` when the trimmed text is non-empty and
`default window` otherwise. -/
theorem handle_ack_first_spec (d : Nat) (env : String → Option String)
    (cfg : String → Option ProductConfig) (body : Option SlackBody) :
    ∃ rest,
      (handleSummariseCommand d env cfg body).1 =
        Event.ack ⟨"ephemeral",
          "Starting summary for " ++ windowStr (invocationText body) ++
            ". I'll post results here shortly."⟩ :: rest ∧
      rest.all (fun e => !e.isAck) = true := by
  obtain ⟨⟨lb, vb⟩, hp⟩ := parse_exists d (invocationText body).data
  cases h1 : ensureRequiredEnv env "PRODUCT" with
  | error e =>
    refine ⟨[Event.envLookup "PRODUCT"], ?_, rfl⟩
    simp [handleSummariseCommand, hp, h1, ackPayload]
  | ok productRaw =>
    cases h2 : ensureRequiredEnv env "CI" with
    | error e =>
      refine ⟨[Event.envLookup "PRODUCT", Event.envLookup "CI"], ?_, rfl⟩
      simp [handleSummariseCommand, hp, h1, h2, ackPayload]
    | ok ciRaw =>
      cases h3 : cfg (pyUpper productRaw) with
      | none =>
        refine ⟨[Event.envLookup "PRODUCT", Event.envLookup "CI",
          Event.configLookup (pyUpper productRaw)], ?_, rfl⟩
        simp [handleSummariseCommand, hp, h1, h2, h3, ackPayload]
      | some pc =>
        refine ⟨[Event.envLookup "PRODUCT", Event.envLookup "CI",
          Event.configLookup (pyUpper productRaw),
          Event.spawn ⟨invocationChannelId body, pyUpper productRaw,
            pyUpper ciRaw, pc, lb, vb⟩], ?_, rfl⟩
        simp [handleSummariseCommand, hp, h1, h2, h3, ackPayload]

/-- Counterexample to C2 as stated: for the non-empty, all-whitespace text
`" "` the acknowledgment describes the default window, not
`last <raw trimmed text>`. -/
theorem handle_ack_window_cex :
    ((handleSummariseCommand 3600 (fun _ => some "X") (fun s => some ⟨s⟩)
        (some ⟨some " ", some "C1234"⟩)).1.head? =
      some (Event.ack ⟨"ephemeral",
        "Starting summary for default window. I'll post results here shortly."⟩)) ∧
    ("Starting summary for default window. I'll post results here shortly." ≠
      "Starting summary for last " ++ String.mk (pyStrip " ".data) ++
        ". I'll post results here shortly.") := by
  exact ⟨rfl, by decide⟩

/-- C3 (amended): at most one background task is ever spawned; exactly one
is spawned when the handler returns normally, and none when `PRODUCT`/`CI`
resolution or the product-configuration lookup raises after the
acknowledgment. -/
theorem handle_spawn_count_spec (d : Nat) (env : String → Option String)
    (cfg : String → Option ProductConfig) (body : Option SlackBody) :
    ((handleSummariseCommand d env cfg body).1.filter Event.isSpawn).length ≤ 1 ∧
    ((handleSummariseCommand d env cfg body).2 = Except.ok () →
      ((handleSummariseCommand d env cfg body).1.filter Event.isSpawn).length
        = 1) ∧
    (∀ e, (handleSummariseCommand d env cfg body).2 = Except.error e →
      ((handleSummariseCommand d env cfg body).1.filter Event.isSpawn).length
        = 0) := by
  obtain ⟨⟨lb, vb⟩, hp⟩ := parse_exists d (invocationText body).data
  cases h1 : ensureRequiredEnv env "PRODUCT" with
  | error e =>
    refine ⟨?_, ?_, ?_⟩ <;>
      simp [handleSummariseCommand, hp, h1, Event.isSpawn, List.filter]
  | ok productRaw =>
    cases h2 : ensureRequiredEnv env "CI" with
    | error e =>
      refine ⟨?_, ?_, ?_⟩ <;>
        simp [handleSummariseCommand, hp, h1, h2, Event.isSpawn, List.filter]
    | ok ciRaw =>
      cases h3 : cfg (pyUpper productRaw) with
      | none =>
        refine ⟨?_, ?_, ?_⟩ <;>
          simp [handleSummariseCommand, hp, h1, h2, h3, Event.isSpawn,
            List.filter]
      | some pc =>
        refine ⟨?_, ?_, ?_⟩ <;>
          simp [handleSummariseCommand, hp, h1, h2, h3, Event.isSpawn,
            List.filter]

/-- Witness for C3 (amended): with a fully-set environment and a successful
configuration lookup, exactly one spawn event occurs. -/
theorem handle_spawn_count_witness :
    ((handleSummariseCommand 3600 (fun _ => some "x") (fun s => some ⟨s⟩)
        (some ⟨some "20m", some "C1234"⟩)).1.filter Event.isSpawn).length = 1 :=
  (handle_spawn_count_spec 3600 (fun _ => some "x") (fun s => some ⟨s⟩)
    (some ⟨some "20m", some "C1234"⟩)).2.1 rfl

/-- Counterexample to C3 as stated: with `PRODUCT` unset, the invocation is
acknowledged (one ack event) yet zero background tasks are spawned, so the
claimed `never zero, even on failed resolution` is false. -/
theorem handle_spawn_cex :
    (((handleSummariseCommand 3600 (fun _ => none) (fun s => some ⟨s⟩)
        (some ⟨some "20m", some "C1234"⟩)).1.filter Event.isAck).length = 1) ∧
    (((handleSummariseCommand 3600 (fun _ => none) (fun s => some ⟨s⟩)
        (some ⟨some "20m", some "C1234"⟩)).1.filter Event.isSpawn).length = 0) :=
  ⟨rfl, rfl⟩

end BugZooka
